import Mathlib

/-!
Verification development for the namada-masp-indexer chain crate
(`chain/src/main.rs`) and the webserver notes-map service
(`webserver/src/service/notes_map.rs`).

The chain crate's collaborators (the commitment tree, witness map,
db/rpc services, the `FollowingHeights` iterator and the retry
machinery) live outside the two source files; where a claim depends on
their behaviour they are modelled from the specification, as noted in
each doc comment.  Machine integers are modelled as `Nat`/`Int` with
explicit reductions modulo powers of two where the Rust code casts.
-/

namespace MaspIndexer

/-- Coordinates of a shielded sub-transaction, mirroring
`shared::indexed_tx::IndexedTx { block_height, block_index, masp_tx_index }`.
`block_index` carries the `idx as u32` cast already applied. -/
structure IndexedTx where
  block_height : Nat
  block_index : Nat
  masp_tx_index : Nat
deriving DecidableEq, Repr

/-- Unit-like error type mirroring `shared::error::MainError`. -/
inductive MainError
  | mk
deriving DecidableEq, Repr

/-! ## Data-level embedding of the per-block MASP update

Modelled from the spec: `CommitmentTree`, `WitnessMap` and
`update_witness_map` live in `chain/src/entity` and
`chain/src/services/masp.rs`, which are not among the given source
files.  Following the spec (section 4.C-4.F): the tree is append-only
(state: the sequence of appended leaves, positions are indices), a
witness is created when its leaf is appended and from then on absorbs
every later leaf, and each appended output records one notes-index row
`(is_fee_unshielding = false, height, block_index, masp_tx_index, position)`. -/

/-- Append-only Merkle commitment tree, modelled by its leaf sequence;
leaf `i` of the chain sits at position `i`. -/
structure CommitmentTree where
  leaves : List Nat
deriving DecidableEq, Repr

/-- Number of appended leaves, mirroring `CommitmentTree::size`. -/
def CommitmentTree.size (t : CommitmentTree) : Nat := t.leaves.length

/-- Witness map: one entry per appended leaf, keyed by its position,
carrying the list of leaves appended after it (the data an incremental
witness absorbs via `update_all_on_append`). -/
structure WitnessMap where
  entries : List (Nat × List Nat)
deriving DecidableEq, Repr

/-- Number of stored witnesses, mirroring `WitnessMap::size`. -/
def WitnessMap.size (w : WitnessMap) : Nat := w.entries.length

/-- One persisted `notes_index` row:
`(is_fee_unshielding, block_height, block_index, masp_tx_index, note_position)`. -/
abbrev NoteRow := Bool × Nat × Nat × Nat × Nat

/-- In-memory state threaded through block processing: the commitment
tree, the witness map and the accumulated notes-index rows. -/
structure MaspState where
  tree : CommitmentTree
  wm : WitnessMap
  notes : List NoteRow
deriving DecidableEq, Repr

/-- Modelled from the spec: appending one output commitment `c` of the
masp tx at `(h, b, m)` — `pos := tree.size`, the tree gains the leaf,
every live witness absorbs it, a fresh witness for `pos` is inserted,
and one notes-index row is recorded with `is_fee_unshielding = false`. -/
def appendOut (h b m : Nat) (st : MaspState) (c : Nat) : MaspState :=
  let pos := st.tree.leaves.length
  { tree := ⟨st.tree.leaves ++ [c]⟩
    wm := ⟨st.wm.entries.map (fun w => (w.1, w.2 ++ [c])) ++ [(pos, [])]⟩
    notes := st.notes ++ [(false, h, b, m, pos)] }

/-- Modelled from the spec: `update_witness_map` appends every output
commitment of one masp tx, in order. -/
def update_witness_map (h b m : Nat) (st : MaspState) (outs : List Nat) : MaspState :=
  outs.foldl (appendOut h b m) st

/-- Inner loop of `build_and_commit_masp_data_at_height` (main.rs lines
258-279): the masp txs of one transaction, `MaspTxIndex` assigned by
enumeration from the given counter. -/
def procMasps (h b : Nat) : Nat → MaspState → List (List Nat) → MaspState
  | _, st, [] => st
  | mIdx, st, outs :: rest =>
      procMasps h b (mIdx + 1) (update_witness_map h b mIdx st outs) rest

/-- Outer loop over a block's `(TxIndex, Transaction { masp_txs })`
pairs, in block order; `TxIndex(idx as u32)` is `idx % 2 ^ 32`. -/
def procTxs (h : Nat) : MaspState → List (Nat × List (List Nat)) → MaspState
  | st, [] => st
  | st, (idx, ms) :: rest => procTxs h (procMasps h (idx % 2 ^ 32) 0 st ms) rest

/-- One block: a height paired with its ordered transaction list; each
transaction is `(TxIndex, list of masp txs, each a list of output
commitments)`. -/
abbrev Block := Nat × List (Nat × List (List Nat))

/-- Process one block against the running state. -/
def procBlock (st : MaspState) (hb : Block) : MaspState :=
  procTxs hb.1 st hb.2

/-- Process a sequence of blocks from the empty state, accumulating the
notes-index rows of every block. -/
def runBlocks (blocks : List Block) : MaspState :=
  blocks.foldl procBlock ⟨⟨[]⟩, ⟨[]⟩, []⟩

/-- Canonical flattening of one transaction's outputs: all commitments
of its masp txs in intra-transaction order. -/
def leavesOfTx (tx : Nat × List (List Nat)) : List Nat :=
  List.flatten tx.2

/-- Canonical flattening of one block's outputs in transaction order. -/
def leavesOfBlock (hb : Block) : List Nat :=
  List.flatten (hb.2.map leavesOfTx)

/-- Canonical flattening of a block sequence: block order, then
transaction order, then masp-tx order, then output order. -/
def canonicalLeaves (blocks : List Block) : List Nat :=
  List.flatten (blocks.map leavesOfBlock)

/-- Rows produced by one masp tx when its first output lands at
position `off`: consecutive positions in output order. -/
def rowsOfOuts (h b m : Nat) : Nat → List Nat → List NoteRow
  | _, [] => []
  | off, _ :: rest => (false, h, b, m, off) :: rowsOfOuts h b m (off + 1) rest

/-- Rows of a transaction's masp txs, with `MaspTxIndex` enumerated
from `mIdx` and positions continuing from `off`. -/
def rowsOfMasps (h b : Nat) : Nat → Nat → List (List Nat) → List NoteRow
  | _, _, [] => []
  | mIdx, off, outs :: rest =>
      rowsOfOuts h b mIdx off outs ++
        rowsOfMasps h b (mIdx + 1) (off + outs.length) rest

/-- Rows of a block's transactions, positions continuing from `off`. -/
def rowsOfTxs (h : Nat) : Nat → List (Nat × List (List Nat)) → List NoteRow
  | _, [] => []
  | off, (idx, ms) :: rest =>
      rowsOfMasps h (idx % 2 ^ 32) 0 off ms ++
        rowsOfTxs h (off + (List.flatten ms).length) rest

/-- Canonical notes-index rows of a block sequence, positions starting
at `off`. -/
def canonicalRowsFrom : Nat → List Block → List NoteRow
  | _, [] => []
  | off, hb :: rest =>
      rowsOfTxs hb.1 off hb.2 ++
        canonicalRowsFrom (off + (leavesOfBlock hb).length) rest

/-- Canonical notes-index rows of a block sequence processed from the
empty state. -/
def canonicalRows (blocks : List Block) : List NoteRow :=
  canonicalRowsFrom 0 blocks

/-! ## Control-flow embedding of `build_and_commit_masp_data_at_height`

Main.rs lines 198-293: the collaborators' outcomes (connection
acquisition, the finality probe, the block fetch, each
`update_witness_map` call and the final commit) are inputs, and the
function is embedded as a trace of the calls it performs paired with
its `Result`. -/

/-- Observable calls performed during one block attempt. -/
inductive Ev
  | rollbackWitnessMap
  | rollbackTree
  | acquireConn
  | probeFinality
  | fetchBlock
  | updateCall (tx : IndexedTx)
  | insertShielded (tx : IndexedTx)
  | commit
deriving DecidableEq, Repr

/-- Outcomes of the collaborators during one attempt at one height:
whether shutdown was requested at entry, the result of
`app_state.get_db_connection()`, of `rpc_service::is_block_committed`,
of `cometbft_service::query_masp_txs_in_block` (on success the block's
`(idx, masp_txs)` list, each masp tx an opaque identifier), of each
`update_witness_map` call, and of `db_service::commit`. -/
structure ProcEnv where
  shutdown : Bool
  conn : Except String Unit
  isCommitted : Except String Bool
  blockData : Except String (List (Nat × List Nat))
  updateRes : IndexedTx → Nat → Except String Unit
  commitRes : Except String Unit

/-- Inner enumeration loop (main.rs lines 261-278): for each masp tx,
call `update_witness_map`; on success insert into `shielded_txs`, on
error propagate (the `?` operator). Returns the calls made and `some ()`
when every masp tx was processed without error. -/
def processMasps (h b : Nat) (upd : IndexedTx → Nat → Except String Unit) :
    Nat → List Nat → List Ev × Option Unit
  | _, [] => ([], some ())
  | mIdx, m :: rest =>
      let itx : IndexedTx := ⟨h, b, mIdx⟩
      match upd itx m with
      | .error _ => ([Ev.updateCall itx], none)
      | .ok _ =>
          let p := processMasps h b upd (mIdx + 1) rest
          (Ev.updateCall itx :: Ev.insertShielded itx :: p.1, p.2)

/-- Outer loop (main.rs lines 258-279) over the block's
`(idx, Transaction { masp_txs })` pairs. -/
def processTxsEv (h : Nat) (upd : IndexedTx → Nat → Except String Unit) :
    List (Nat × List Nat) → List Ev × Option Unit
  | [] => ([], some ())
  | (idx, ms) :: rest =>
      let p := processMasps h (idx % 2 ^ 32) upd 0 ms
      match p.2 with
      | none => (p.1, none)
      | some _ =>
          let q := processTxsEv h upd rest
          (p.1 ++ q.1, q.2)

/-- Boolean side condition: every `update_witness_map` call of the
masp-tx list succeeds, with `MaspTxIndex` enumerated from `mIdx`. -/
def maspsOk (h b : Nat) (upd : IndexedTx → Nat → Except String Unit) :
    Nat → List Nat → Bool
  | _, [] => true
  | mIdx, m :: rest =>
      (upd ⟨h, b, mIdx⟩ m matches Except.ok _) && maspsOk h b upd (mIdx + 1) rest

/-- Boolean side condition: every shielded transaction of the block is
processed without error. -/
def txsOk (h : Nat) (upd : IndexedTx → Nat → Except String Unit) :
    List (Nat × List Nat) → Bool
  | [] => true
  | (idx, ms) :: rest => maspsOk h (idx % 2 ^ 32) upd 0 ms && txsOk h upd rest

/-- Boolean side condition: the block fetch succeeded and every
shielded transaction of the fetched block is processed without error. -/
def fetchAndUpdatesOk (h : Nat) (env : ProcEnv) : Bool :=
  match env.blockData with
  | .error _ => false
  | .ok txs => txsOk h env.updateRes txs

/-- Embedding of `build_and_commit_masp_data_at_height` (main.rs lines
198-293): checks shutdown, rolls back the witness map then the tree,
acquires a connection, probes finality, fetches block data, runs the
two enumeration loops, then commits; every fallible step propagates its
error via `?` as a `MainError`. -/
def build_and_commit_masp_data_at_height (h : Nat) (env : ProcEnv) :
    List Ev × Except MainError Unit :=
  if env.shutdown then ([], .ok ())
  else
    match env.conn with
    | .error _ =>
        ([Ev.rollbackWitnessMap, Ev.rollbackTree, Ev.acquireConn], .error .mk)
    | .ok _ =>
        let evs1 := [Ev.rollbackWitnessMap, Ev.rollbackTree, Ev.acquireConn,
          Ev.probeFinality]
        match env.isCommitted with
        | .error _ => (evs1, .error .mk)
        | .ok false => (evs1, .error .mk)
        | .ok true =>
            let evs2 := evs1 ++ [Ev.fetchBlock]
            match env.blockData with
            | .error _ => (evs2, .error .mk)
            | .ok txs =>
                let p := processTxsEv h env.updateRes txs
                match p.2 with
                | none => (evs2 ++ p.1, .error .mk)
                | some _ =>
                    match env.commitRes with
                    | .error _ => (evs2 ++ p.1 ++ [Ev.commit], .error .mk)
                    | .ok _ => (evs2 ++ p.1 ++ [Ev.commit], .ok ())

/-! ## `load_committed_state` (main.rs lines 157-196)

The db loads themselves are external; the guard on the loaded values is
embedded exactly: error iff exactly one of the tree size and the
witness-map size is zero. -/

/-- Embedding of the `load_committed_state` consistency guard over the
values loaded from storage. -/
def load_committed_state (last : Option Nat) (tree : CommitmentTree)
    (wm : WitnessMap) :
    Except String (Option Nat × CommitmentTree × WitnessMap) :=
  let commitment_tree_len := tree.size
  let witness_map_len := wm.size
  if (commitment_tree_len == 0 && witness_map_len != 0)
      || (commitment_tree_len != 0 && witness_map_len == 0) then
    .error "Invalid database state"
  else
    .ok (last, tree, wm)

/-! ## The retry policy and the follower loop (main.rs lines 37-101)

`FixedInterval`, `jitter` and `RetryIf` come from the tokio-retry
crate and `FollowingHeights` from the shared crate; both are modelled
from the spec: a fixed-interval strategy yields the same base delay
forever (no retry cap), `RetryIf` re-runs the action on error while
the predicate holds, and `FollowingHeights::after h` enumerates
`h+1, h+2, ...` (`0, 1, ...` when nothing was persisted). -/

/-- Default retry interval in seconds (main.rs line 38). -/
def DEFAULT_INTERVAL : Nat := 5

/-- Base retry delay in milliseconds (main.rs lines 67-69): the
configured interval in seconds times 1000, defaulting to
`DEFAULT_INTERVAL * 1000`. -/
def retryBaseMillis (interval : Option Nat) : Nat :=
  (interval.map (fun secs => secs * 1000)).getD (DEFAULT_INTERVAL * 1000)

/-- Modelled from the spec: `FixedInterval::from_millis` yields the
same delay at every retry index — the strategy never runs out. -/
def fixedIntervalStrategy (millis : Nat) : Nat → Nat :=
  fun _ => millis

/-- Modelled from the spec: `RetryIf` over a prepared list of attempt
outcomes, with the follower's predicate "retry iff not shutting down"
(main.rs line 96) reading the shutdown flag at each attempt index.
Returns `none` when the listed attempts are exhausted with the loop
still retrying. -/
def retryIfRun (shutdown : Nat → Bool) :
    List (Except MainError Unit) → Nat → Option (Except MainError Unit)
  | [], _ => none
  | .ok a :: _, _ => some (.ok a)
  | .error e :: rest, i =>
      if shutdown i then some (.error e) else retryIfRun shutdown rest (i + 1)

/-- Modelled from the spec: the `i`-th height visited by
`FollowingHeights::after last`. -/
def followerHeight (last : Option Nat) (i : Nat) : Nat :=
  match last with
  | none => i
  | some h => h + 1 + i

/-- The follower loop (main.rs lines 72-99), fuelled: at each iteration
index it first checks the shutdown flag, breaking with `some ()` (the
`Ok(())` exit) when set, and otherwise processes the next height to
completion before moving on. `none` means the fuel ran out with the
loop still running. -/
def followerRun (last : Option Nat) (shutdown : Nat → Bool) :
    Nat → Nat → List Nat × Option Unit
  | 0, _ => ([], none)
  | fuel + 1, i =>
      if shutdown i then ([], some ())
      else
        let p := followerRun last shutdown fuel (i + 1)
        (followerHeight last i :: p.1, p.2)

/-! ## `run_migrations` (main.rs lines 122-155) -/

/-- Retry budget from the `DATABASE_MAX_MIGRATION_RETRY` environment
variable (main.rs lines 123-126). The variable's state is given as the
outcome of `env::var` composed with `str::parse::<u64>` (both external):
`none` when the variable is unset (the code then parses the literal
"5"), `some none` when it is set but unparseable, `some (some n)` when
it parses to `n`; `unwrap_or(5)` turns the two failure states into 5. -/
def migrationMaxRetries (envVar : Option (Option Nat)) : Nat :=
  match envVar with
  | none => 5
  | some p => p.getD 5

/-- Embedding of the `run_migrations` loop: at each iteration acquire a
connection (an error there propagates immediately), run the migration;
return `Ok` on success, and on failure return the error when the
remaining budget is zero, otherwise sleep and go round with the budget
decremented. Result: the outcome, the number of migration attempts
made, and the number of 3-second sleeps taken. -/
def run_migrations (conns migs : Nat → Except String Unit) :
    Nat → Nat → Except String Unit × Nat × Nat
  | 0, i =>
      match conns i with
      | .error e => (.error e, 0, 0)
      | .ok _ =>
          match migs i with
          | .ok _ => (.ok (), 1, 0)
          | .error e => (.error e, 1, 0)
  | r + 1, i =>
      match conns i with
      | .error e => (.error e, 0, 0)
      | .ok _ =>
          match migs i with
          | .ok _ => (.ok (), 1, 0)
          | .error _ =>
              let p := run_migrations conns migs r (i + 1)
              (p.1, p.2.1 + 1, p.2.2 + 1)

/-! ## Webserver notes-map service (`webserver/src/service/notes_map.rs`) -/

/-- Rust `x as i32` on a `u64` value: two's-complement reinterpretation
of the low 32 bits. -/
def u64_as_i32 (x : Nat) : Int :=
  let r : Nat := x % 2 ^ 32
  if r < 2 ^ 31 then (r : Int) else (r : Int) - 2 ^ 32

/-- Rust `v as u64` on an `i32` value: sign-extension to 64 bits
reinterpreted as unsigned, i.e. the representative modulo `2 ^ 64`. -/
def i32_as_u64 (v : Int) : Nat :=
  (v % (2 ^ 64 : Int)).toNat

/-- One row returned by the notes-map repository, with the schema's
`INT4` columns as mathematical integers in i32 range. -/
structure NotesMapEntry where
  is_fee_unshielding : Bool
  block_height : Int
  block_index : Int
  masp_tx_index : Int
  note_position : Int

/-- Tuple built for one repository row (notes_map.rs lines 27-35): the
four `i32` fields each cast with `as u64`. -/
def notesMapEntryTuple (e : NotesMapEntry) : Bool × Nat × Nat × Nat × Nat :=
  (e.is_fee_unshielding, i32_as_u64 e.block_height, i32_as_u64 e.block_index,
    i32_as_u64 e.masp_tx_index, i32_as_u64 e.note_position)

/-- Embedding of `NotesMapService::get_notes_map` (notes_map.rs lines
18-37): the repository — an input, keyed by the `i32` it is queried at —
is called at `from_block_height as i32`, and each returned row's `i32`
fields are cast `as u64`. -/
def get_notes_map (repo : Int → List NotesMapEntry) (from_block_height : Nat) :
    List (Bool × Nat × Nat × Nat × Nat) :=
  (repo (u64_as_i32 from_block_height)).map notesMapEntryTuple

/-! ## Lemmas: the append order of the per-block MASP update -/

theorem update_witness_map_tree (h b m : Nat) (outs : List Nat) :
    ∀ st : MaspState,
      (update_witness_map h b m st outs).tree.leaves = st.tree.leaves ++ outs := by
  induction outs with
  | nil => intro st; simp [update_witness_map]
  | cons c cs ih =>
      intro st
      simp only [update_witness_map, List.foldl_cons] at *
      rw [ih (appendOut h b m st c)]
      simp [appendOut]

theorem update_witness_map_notes (h b m : Nat) (outs : List Nat) :
    ∀ st : MaspState,
      (update_witness_map h b m st outs).notes =
        st.notes ++ rowsOfOuts h b m st.tree.leaves.length outs := by
  induction outs with
  | nil => intro st; simp [update_witness_map, rowsOfOuts]
  | cons c cs ih =>
      intro st
      simp only [update_witness_map, List.foldl_cons] at *
      rw [ih (appendOut h b m st c)]
      simp [appendOut, rowsOfOuts, List.append_assoc]

theorem procMasps_tree (h b : Nat) (ms : List (List Nat)) :
    ∀ (m : Nat) (st : MaspState),
      (procMasps h b m st ms).tree.leaves = st.tree.leaves ++ List.flatten ms := by
  induction ms with
  | nil => intro m st; simp [procMasps]
  | cons outs rest ih =>
      intro m st
      simp only [procMasps]
      rw [ih, update_witness_map_tree]
      simp

theorem procMasps_notes (h b : Nat) (ms : List (List Nat)) :
    ∀ (m : Nat) (st : MaspState),
      (procMasps h b m st ms).notes =
        st.notes ++ rowsOfMasps h b m st.tree.leaves.length ms := by
  induction ms with
  | nil => intro m st; simp [procMasps, rowsOfMasps]
  | cons outs rest ih =>
      intro m st
      simp only [procMasps, rowsOfMasps]
      rw [ih, update_witness_map_notes, update_witness_map_tree]
      simp [List.append_assoc]

theorem procTxs_tree (h : Nat) (txs : List (Nat × List (List Nat))) :
    ∀ st : MaspState,
      (procTxs h st txs).tree.leaves =
        st.tree.leaves ++ List.flatten (txs.map leavesOfTx) := by
  induction txs with
  | nil => intro st; simp [procTxs]
  | cons tx rest ih =>
      intro st
      obtain ⟨idx, ms⟩ := tx
      simp only [procTxs]
      rw [ih, procMasps_tree]
      simp [leavesOfTx]

theorem procTxs_notes (h : Nat) (txs : List (Nat × List (List Nat))) :
    ∀ st : MaspState,
      (procTxs h st txs).notes =
        st.notes ++ rowsOfTxs h st.tree.leaves.length txs := by
  induction txs with
  | nil => intro st; simp [procTxs, rowsOfTxs]
  | cons tx rest ih =>
      intro st
      obtain ⟨idx, ms⟩ := tx
      simp only [procTxs, rowsOfTxs]
      rw [ih, procMasps_notes, procMasps_tree]
      simp [List.append_assoc]

theorem foldl_procBlock_tree (blocks : List Block) :
    ∀ st : MaspState,
      (blocks.foldl procBlock st).tree.leaves =
        st.tree.leaves ++ canonicalLeaves blocks := by
  induction blocks with
  | nil => intro st; simp [canonicalLeaves]
  | cons hb rest ih =>
      intro st
      simp only [List.foldl_cons]
      rw [ih, procBlock, procTxs_tree]
      simp [canonicalLeaves, leavesOfBlock]

theorem foldl_procBlock_notes (blocks : List Block) :
    ∀ st : MaspState,
      (blocks.foldl procBlock st).notes =
        st.notes ++ canonicalRowsFrom st.tree.leaves.length blocks := by
  induction blocks with
  | nil => intro st; simp [canonicalRowsFrom]
  | cons hb rest ih =>
      intro st
      simp only [List.foldl_cons, canonicalRowsFrom]
      rw [ih, procBlock, procTxs_notes, procTxs_tree]
      simp [List.append_assoc, leavesOfBlock]

/-! ## Lemmas: the enumeration loops of the block attempt -/

theorem processMasps_no_commit (h b : Nat)
    (upd : IndexedTx → Nat → Except String Unit) (ms : List Nat) :
    ∀ m : Nat, Ev.commit ∉ (processMasps h b upd m ms).1 := by
  induction ms with
  | nil => intro m; simp [processMasps]
  | cons x rest ih =>
      intro m
      simp only [processMasps]
      cases upd ⟨h, b, m⟩ x with
      | error e => simp
      | ok a => simpa using ih (m + 1)

theorem processTxsEv_no_commit (h : Nat)
    (upd : IndexedTx → Nat → Except String Unit)
    (txs : List (Nat × List Nat)) :
    Ev.commit ∉ (processTxsEv h upd txs).1 := by
  induction txs with
  | nil => simp [processTxsEv]
  | cons tx rest ih =>
      obtain ⟨idx, ms⟩ := tx
      simp only [processTxsEv]
      cases hp : (processMasps h (idx % 2 ^ 32) upd 0 ms).2 with
      | none =>
          have := processMasps_no_commit h (idx % 2 ^ 32) upd ms 0
          simpa using this
      | some a =>
          have h1 := processMasps_no_commit h (idx % 2 ^ 32) upd ms 0
          simp only [List.mem_append]
          intro hmem
          rcases hmem with hmem | hmem
          · exact h1 hmem
          · exact ih hmem

theorem processMasps_ok_iff (h b : Nat)
    (upd : IndexedTx → Nat → Except String Unit) (ms : List Nat) :
    ∀ m : Nat,
      (processMasps h b upd m ms).2 = some () ↔ maspsOk h b upd m ms = true := by
  induction ms with
  | nil => intro m; simp [processMasps, maspsOk]
  | cons x rest ih =>
      intro m
      simp only [processMasps, maspsOk]
      cases upd ⟨h, b, m⟩ x with
      | error e => simp
      | ok a => simpa using ih (m + 1)

theorem processTxsEv_ok_iff (h : Nat)
    (upd : IndexedTx → Nat → Except String Unit)
    (txs : List (Nat × List Nat)) :
    (processTxsEv h upd txs).2 = some () ↔ txsOk h upd txs = true := by
  induction txs with
  | nil => simp [processTxsEv, txsOk]
  | cons tx rest ih =>
      obtain ⟨idx, ms⟩ := tx
      simp only [processTxsEv, txsOk]
      cases hp : (processMasps h (idx % 2 ^ 32) upd 0 ms).2 with
      | none =>
          have hmf : maspsOk h (idx % 2 ^ 32) upd 0 ms = false := by
            cases hb : maspsOk h (idx % 2 ^ 32) upd 0 ms with
            | false => rfl
            | true =>
                have hsome := (processMasps_ok_iff h (idx % 2 ^ 32) upd ms 0).mpr hb
                rw [hp] at hsome
                exact Option.noConfusion hsome
          simp [hp, hmf]
          intro hmb
          rw [show (4294967296 : Nat) = 2 ^ 32 by norm_num] at hmb
          rw [hmb] at hmf
          exact Bool.noConfusion hmf
      | some a =>
          have hmt : maspsOk h (idx % 2 ^ 32) upd 0 ms = true := by
            apply (processMasps_ok_iff h (idx % 2 ^ 32) upd ms 0).mp
            rw [hp]
          simp [hp, hmt, ih]
          intro hrest
          rw [show (4294967296 : Nat) = 2 ^ 32 by norm_num]
          exact hmt

/-! ## Lemmas: the retry loop, the follower loop and the migrations loop -/

theorem retryIfRun_replicate_error (e : MainError) :
    ∀ (n i : Nat),
      retryIfRun (fun _ => false) (List.replicate n (Except.error e)) i = none := by
  intro n
  induction n with
  | zero => intro i; simp [retryIfRun]
  | succ k ih => intro i; simp only [List.replicate, retryIfRun]; exact ih (i + 1)

theorem followerRun_shutdown_from (last : Option Nat) (k : Nat) :
    ∀ (fuel i : Nat), i ≤ k → k < i + fuel →
      followerRun last (fun j => decide (k ≤ j)) fuel i =
        ((List.range' i (k - i)).map (followerHeight last), some ()) := by
  intro fuel
  induction fuel with
  | zero => intro i h1 h2; omega
  | succ f ih =>
      intro i h1 h2
      by_cases hik : k ≤ i
      · have : i = k := le_antisymm h1 hik
        subst this
        simp [followerRun]
      · have hlt : i < k := lt_of_not_ge hik
        have hrec := ih (i + 1) (by omega) (by omega)
        simp only [followerRun, decide_eq_true_eq, if_neg hik, hrec]
        have hk : k - i = (k - (i + 1)) + 1 := by omega
        rw [hk, List.range'_succ]
        simp

theorem run_migrations_attempts_le (conns migs : Nat → Except String Unit) :
    ∀ (r i : Nat), (run_migrations conns migs r i).2.1 ≤ r + 1 := by
  intro r
  induction r with
  | zero =>
      intro i
      simp only [run_migrations]
      cases conns i with
      | error e => simp
      | ok a => cases migs i <;> simp
  | succ r ih =>
      intro i
      simp only [run_migrations]
      cases conns i with
      | error e => simp
      | ok a =>
          cases migs i with
          | ok b => simp
          | error e =>
              have := ih (i + 1)
              simpa using Nat.succ_le_succ this

theorem run_migrations_all_fail (conns migs : Nat → Except String Unit)
    (e : Nat → String) (hc : ∀ j, conns j = .ok ())
    (hm : ∀ j, migs j = .error (e j)) :
    ∀ (r i : Nat),
      run_migrations conns migs r i = (.error (e (i + r)), r + 1, r) := by
  intro r
  induction r with
  | zero => intro i; simp [run_migrations, hc i, hm i]
  | succ r ih =>
      intro i
      simp only [run_migrations, hc i, hm i]
      rw [ih (i + 1)]
      have : i + 1 + r = i + (r + 1) := by omega
      simp [this]

/-! ## The claims -/

/-- C1: Position determinism — processing a fixed block sequence from the
empty state twice yields identical states (tree, witness map, notes
rows), and the per-leaf append order is block-order, then
transaction-order, then intra-transaction masp-tx order, then output
order: the leaves equal the canonical flattening and the notes-index
rows enumerate exactly those outputs with consecutive positions from 0. -/
theorem c1_position_determinism (blocks blocks2 : List Block)
    (hrepeat : blocks2 = blocks) :
    runBlocks blocks = runBlocks blocks2 ∧
    (runBlocks blocks).tree.leaves = canonicalLeaves blocks ∧
    (runBlocks blocks).notes = canonicalRows blocks := by
  refine ⟨by rw [hrepeat], ?_, ?_⟩
  · simpa [runBlocks] using foldl_procBlock_tree blocks ⟨⟨[]⟩, ⟨[]⟩, []⟩
  · simpa [runBlocks, canonicalRows] using
      foldl_procBlock_notes blocks ⟨⟨[]⟩, ⟨[]⟩, []⟩

/-- C1 witness: the spec's S2 scenario — one block at height 1 with
TxIndex 0 holding one masp tx of two outputs and TxIndex 2 holding one
masp tx of one output. -/
theorem c1_position_determinism_witness :
    runBlocks [(1, [(0, [[10, 11]]), (2, [[12]])])] =
        runBlocks [(1, [(0, [[10, 11]]), (2, [[12]])])] ∧
    (runBlocks [(1, [(0, [[10, 11]]), (2, [[12]])])]).tree.leaves =
        canonicalLeaves [(1, [(0, [[10, 11]]), (2, [[12]])])] ∧
    (runBlocks [(1, [(0, [[10, 11]]), (2, [[12]])])]).notes =
        canonicalRows [(1, [(0, [[10, 11]]), (2, [[12]])])] :=
  c1_position_determinism [(1, [(0, [[10, 11]]), (2, [[12]])])]
    [(1, [(0, [[10, 11]]), (2, [[12]])])] rfl

/-- C2: for every environment, the commit call appears in the attempt's
trace exactly when shutdown was not requested, the connection was
acquired, the finality probe returned true, the block fetch succeeded
and every shielded transaction of the block was processed without
error; and the attempt succeeds exactly when it was a shutdown no-op or
all of those steps plus the commit itself succeeded — so a failure at
any earlier step (connection acquisition, finality probe, block fetch,
or witness-map update) yields an error result with no commit call in
the trace. -/
theorem c2_commit_only_after_success (h : Nat) (env : ProcEnv) :
    (Ev.commit ∈ (build_and_commit_masp_data_at_height h env).1 ↔
      (env.shutdown = false ∧ env.conn = .ok () ∧
        env.isCommitted = .ok true ∧ fetchAndUpdatesOk h env = true)) ∧
    ((build_and_commit_masp_data_at_height h env).2 = .ok () ↔
      (env.shutdown = true ∨
        (env.conn = .ok () ∧ env.isCommitted = .ok true ∧
          fetchAndUpdatesOk h env = true ∧ env.commitRes = .ok ()))) := by
  obtain ⟨sd, conn, isc, bd, upd, cr⟩ := env
  simp only [build_and_commit_masp_data_at_height, fetchAndUpdatesOk]
  cases sd with
  | true => simp
  | false =>
      cases conn with
      | error e => simp
      | ok u =>
          cases isc with
          | error e => simp
          | ok b =>
              cases b with
              | false => simp
              | true =>
                  cases bd with
                  | error e => simp
                  | ok txs =>
                      simp only
                      cases hp : (processTxsEv h upd txs).2 with
                      | none =>
                          have htf : txsOk h upd txs = false := by
                            cases hb : txsOk h upd txs with
                            | false => rfl
                            | true =>
                                have hsome :=
                                  (processTxsEv_ok_iff h upd txs).mpr hb
                                rw [hp] at hsome
                                exact Option.noConfusion hsome
                          have hnc := processTxsEv_no_commit h upd txs
                          simp [hp, htf, hnc]
                      | some a =>
                          have htt : txsOk h upd txs = true := by
                            apply (processTxsEv_ok_iff h upd txs).mp
                            rw [hp]
                          cases cr <;> simp [hp, htt]

/-- C3: on every attempt with shutdown not requested, the first two
calls of the trace are the witness-map rollback then the tree rollback —
before the connection acquisition, the finality probe and every other
call. -/
theorem c3_rollback_first (h : Nat) (env : ProcEnv)
    (hs : env.shutdown = false) :
    ((build_and_commit_masp_data_at_height h env).1).take 2 =
      [Ev.rollbackWitnessMap, Ev.rollbackTree] := by
  obtain ⟨sd, conn, isc, bd, upd, cr⟩ := env
  simp only at hs
  subst hs
  simp only [build_and_commit_masp_data_at_height]
  cases conn with
  | error e => simp
  | ok u =>
      cases isc with
      | error e => simp
      | ok b =>
          cases b with
          | false => simp
          | true =>
              cases bd with
              | error e => simp
              | ok txs =>
                  simp only
                  cases hp : (processTxsEv h upd txs).2 with
                  | none => simp [hp]
                  | some a => cases cr <;> simp [hp]

/-- C3 witness: an environment whose probe fails, with shutdown not
requested. -/
theorem c3_rollback_first_witness :
    ((build_and_commit_masp_data_at_height 9
        { shutdown := false, conn := .ok (), isCommitted := .error "rpc",
          blockData := .ok [], updateRes := fun _ _ => .ok (),
          commitRes := .ok () }).1).take 2 =
      [Ev.rollbackWitnessMap, Ev.rollbackTree] :=
  c3_rollback_first 9
    { shutdown := false, conn := .ok (), isCommitted := .error "rpc",
      blockData := .ok [], updateRes := fun _ _ => .ok (),
      commitRes := .ok () } rfl

/-- C4: `load_committed_state` fails with the "Invalid database state"
error exactly when one of the loaded tree size and witness-map size is
zero and the other is not; when the two are both zero or both nonzero
it returns the loaded triple. -/
theorem c4_load_committed_state_guard (last last2 : Option Nat)
    (tree tree2 : CommitmentTree) (wm wm2 : WitnessMap)
    (hcons : tree2.size = 0 ↔ wm2.size = 0) :
    (load_committed_state last tree wm = .error "Invalid database state" ↔
      ((tree.size = 0 ∧ wm.size ≠ 0) ∨ (tree.size ≠ 0 ∧ wm.size = 0))) ∧
    load_committed_state last2 tree2 wm2 = .ok (last2, tree2, wm2) := by
  constructor
  · simp only [load_committed_state]
    split_ifs with hc
    · simp only [true_iff]
      simpa using hc
    · simp only [Bool.or_eq_true, Bool.and_eq_true, beq_iff_eq,
        bne_iff_ne, ne_eq, not_or, not_and] at hc
      constructor
      · intro habs
        cases habs
      · intro habs
        exfalso
        rcases habs with ⟨hz, hnz⟩ | ⟨hnz, hz⟩ <;> tauto
  · simp only [load_committed_state]
    split_ifs with hc
    · simp only [Bool.or_eq_true, Bool.and_eq_true, beq_iff_eq,
        bne_iff_ne, ne_eq] at hc
      rcases hc with ⟨hz, hnz⟩ | ⟨hnz, hz⟩
      · exact absurd (hcons.mp hz) hnz
      · exact absurd (hcons.mpr hz) hnz
    · rfl

/-- C4 witness: a consistent nonempty state for the guard direction and
an empty-empty state for the accepting direction. -/
theorem c4_load_committed_state_guard_witness :
    (load_committed_state (some 7) ⟨[1]⟩ ⟨[]⟩ = .error "Invalid database state" ↔
      ((CommitmentTree.size ⟨[1]⟩ = 0 ∧ WitnessMap.size ⟨[]⟩ ≠ 0) ∨
        (CommitmentTree.size ⟨[1]⟩ ≠ 0 ∧ WitnessMap.size ⟨[]⟩ = 0))) ∧
    load_committed_state none ⟨[]⟩ ⟨[]⟩ = .ok (none, ⟨[]⟩, ⟨[]⟩) :=
  c4_load_committed_state_guard (some 7) none ⟨[1]⟩ ⟨[]⟩ ⟨[]⟩ ⟨[]⟩
    (by simp [CommitmentTree.size, WitnessMap.size])

/-- C5: the retry policy is fixed-interval with base delay the
configured interval in seconds times 1000 ms (5 s when absent), the
strategy yields that same delay at every retry index (no retry cap: any
number of consecutive failures leaves the loop still retrying when the
shutdown flag stays unset), and an erroring attempt stops the loop
exactly when the shutdown flag is set at that attempt. -/
theorem c5_retry_policy (s m k n i : Nat) (sh : Nat → Bool) (e : MainError)
    (rest : List (Except MainError Unit)) :
    retryBaseMillis none = DEFAULT_INTERVAL * 1000 ∧
    DEFAULT_INTERVAL = 5 ∧
    retryBaseMillis (some s) = s * 1000 ∧
    fixedIntervalStrategy m k = m ∧
    retryIfRun (fun _ => false) (List.replicate n (Except.error e)) 0 = none ∧
    retryIfRun sh (Except.error e :: rest) i =
      (if sh i then some (Except.error e) else retryIfRun sh rest (i + 1)) ∧
    retryIfRun sh (Except.ok () :: rest) i = some (Except.ok ()) :=
  ⟨rfl, rfl, rfl, rfl, retryIfRun_replicate_error e n 0, rfl, rfl⟩

/-- C6: the follower visits heights in strictly ascending order starting
one past the last persisted height (0 when nothing is persisted),
processes one height per iteration, checks the shutdown flag at the top
of each iteration, and exits returning success once the flag is set. -/
theorem c6_follower_loop (last : Option Nat) (h0 k fuel i j : Nat)
    (hfuel : k + 1 ≤ fuel) (hij : i < j) :
    followerRun last (fun a => decide (k ≤ a)) fuel 0 =
      ((List.range k).map (followerHeight last), some ()) ∧
    followerHeight none 0 = 0 ∧
    followerHeight (some h0) 0 = h0 + 1 ∧
    followerHeight last i < followerHeight last j := by
  refine ⟨?_, rfl, rfl, ?_⟩
  · have hrun := followerRun_shutdown_from last k fuel 0 (Nat.zero_le k)
      (by omega)
    simpa [List.range_eq_range'] using hrun
  · cases last <;> simp only [followerHeight] <;> omega

/-- C6 witness: resuming after height 10 with shutdown first requested
at the third iteration — heights 11 and 12 are visited, in order, and
the loop exits cleanly. -/
theorem c6_follower_loop_witness :
    followerRun (some 10) (fun a => decide (2 ≤ a)) 4 0 =
      ((List.range 2).map (followerHeight (some 10)), some ()) ∧
    followerHeight none 0 = 0 ∧
    followerHeight (some 10) 0 = 10 + 1 ∧
    followerHeight (some 10) 0 < followerHeight (some 10) 1 :=
  c6_follower_loop (some 10) 10 2 4 0 1 (by decide) (by decide)

/-- C7: when the finality probe reports the block as not committed (and
shutdown was not requested and the connection was acquired), the
attempt returns an error and its trace stops at the probe — no block
fetch, no update call, no shielded insert, no commit. -/
theorem c7_not_committed_aborts (h : Nat) (env : ProcEnv)
    (hs : env.shutdown = false) (hc : env.conn = .ok ())
    (hp : env.isCommitted = .ok false) :
    build_and_commit_masp_data_at_height h env =
      ([Ev.rollbackWitnessMap, Ev.rollbackTree, Ev.acquireConn,
        Ev.probeFinality], .error .mk) := by
  obtain ⟨sd, conn, isc, bd, upd, cr⟩ := env
  simp only at hs hc hp
  subst hs
  subst hc
  subst hp
  rfl

/-- C7 witness: a not-yet-committed block at height 42. -/
theorem c7_not_committed_aborts_witness :
    build_and_commit_masp_data_at_height 42
        { shutdown := false, conn := .ok (), isCommitted := .ok false,
          blockData := .ok [(0, [5])], updateRes := fun _ _ => .ok (),
          commitRes := .ok () } =
      ([Ev.rollbackWitnessMap, Ev.rollbackTree, Ev.acquireConn,
        Ev.probeFinality], .error .mk) :=
  c7_not_committed_aborts 42
    { shutdown := false, conn := .ok (), isCommitted := .ok false,
      blockData := .ok [(0, [5])], updateRes := fun _ _ => .ok (),
      commitRes := .ok () } rfl rfl rfl

/-- C8: when the shutdown flag is set at entry the block attempt is a
successful no-op — an empty trace (no rollback, no connection, no RPC,
no state change) and an `Ok` result. -/
theorem c8_shutdown_noop (h : Nat) (env : ProcEnv)
    (hs : env.shutdown = true) :
    build_and_commit_masp_data_at_height h env = ([], .ok ()) := by
  simp [build_and_commit_masp_data_at_height, hs]

/-- C8 witness: shutdown requested at height 0. -/
theorem c8_shutdown_noop_witness :
    build_and_commit_masp_data_at_height 0
        { shutdown := true, conn := .error "down", isCommitted := .ok true,
          blockData := .ok [(0, [5])], updateRes := fun _ _ => .ok (),
          commitRes := .ok () } = ([], .ok ()) :=
  c8_shutdown_noop 0
    { shutdown := true, conn := .error "down", isCommitted := .ok true,
      blockData := .ok [(0, [5])], updateRes := fun _ _ => .ok (),
      commitRes := .ok () } rfl

/-- C9: the migration loop's budget comes from
`DATABASE_MAX_MIGRATION_RETRY` (5 when unset or unparseable), the
number of migration attempts never exceeds budget + 1, a run whose
attempts all fail makes exactly budget + 1 attempts with a sleep
between consecutive ones and returns the last error, and a succeeding
first attempt returns `Ok` immediately. -/
theorem c9_run_migrations (envVar : Option (Option Nat)) (nV : Nat)
    (conns1 migs1 conns2 migs2 conns3 migs3 : Nat → Except String Unit)
    (e : Nat → String) (r ri r2 i2 i3 : Nat)
    (hc1 : ∀ j, conns1 j = .ok ()) (hm1 : ∀ j, migs1 j = .error (e j))
    (hc2 : conns2 i2 = .ok ()) (hm2 : migs2 i2 = .ok ()) :
    migrationMaxRetries none = 5 ∧
    migrationMaxRetries (some none) = 5 ∧
    migrationMaxRetries (some (some nV)) = nV ∧
    (run_migrations conns3 migs3 (migrationMaxRetries envVar) i3).2.1 ≤
      migrationMaxRetries envVar + 1 ∧
    run_migrations conns1 migs1 r ri = (.error (e (ri + r)), r + 1, r) ∧
    run_migrations conns2 migs2 r2 i2 = (.ok (), 1, 0) := by
  refine ⟨rfl, rfl, rfl, ?_, ?_, ?_⟩
  · exact run_migrations_attempts_le conns3 migs3 (migrationMaxRetries envVar) i3
  · exact run_migrations_all_fail conns1 migs1 e hc1 hm1 r ri
  · cases r2 <;> simp [run_migrations, hc2, hm2]

/-- C9 witness: an unset variable, a set-but-unparseable variable, a
variable parsing to 7, an always-failing run with budget 2 and an
immediately succeeding run. -/
theorem c9_run_migrations_witness :
    migrationMaxRetries none = 5 ∧
    migrationMaxRetries (some none) = 5 ∧
    migrationMaxRetries (some (some 7)) = 7 ∧
    (run_migrations (fun _ => .ok ()) (fun _ => .error "boom")
        (migrationMaxRetries none) 0).2.1 ≤ migrationMaxRetries none + 1 ∧
    run_migrations (fun _ => .ok ()) (fun _ => .error "boom") 2 0 =
      (.error ((fun _ => "boom") (0 + 2)), 2 + 1, 2) ∧
    run_migrations (fun _ => .ok ()) (fun _ => .ok ()) 4 0 = (.ok (), 1, 0) :=
  c9_run_migrations none 7 (fun _ => .ok ())
    (fun _ => .error "boom") (fun _ => .ok ()) (fun _ => .ok ())
    (fun _ => .ok ()) (fun _ => .error "boom") (fun _ => "boom") 2 0 4 0 0
    (fun _ => rfl) (fun _ => rfl) rfl rfl

/-- C10: the service truncates its u64 `from_block_height` to an i32
before querying the repository — for inputs of at least `2 ^ 31` the
queried height is the two's-complement reinterpretation of the low 32
bits, never the requested height — and each returned row's i32 fields
are cast to u64, sending a negative stored value `v` to `v + 2 ^ 64`, a
value within `2 ^ 31` of `2 ^ 64`. -/
theorem c10_notes_map_casts (repo : Int → List NotesMapEntry)
    (fbh : Nat) (v : Int)
    (h1 : 2 ^ 31 ≤ fbh) (h2 : fbh < 2 ^ 64)
    (hv1 : -(2 ^ 31) ≤ v) (hv2 : v < 0) :
    get_notes_map repo fbh = (repo (u64_as_i32 fbh)).map notesMapEntryTuple ∧
    u64_as_i32 fbh ≠ (fbh : Int) ∧
    i32_as_u64 v = (v + 2 ^ 64).toNat ∧
    2 ^ 64 - 2 ^ 31 ≤ i32_as_u64 v := by
  refine ⟨rfl, ?_, ?_, ?_⟩
  · simp only [u64_as_i32]
    split_ifs with hr <;> omega
  · simp only [i32_as_u64]
    omega
  · simp only [i32_as_u64]
    omega

/-- C10 witness: requesting height `2 ^ 31` queries the repository at
`-2 ^ 31`, and a stored `-1` maps to `2 ^ 64 - 1`. -/
theorem c10_notes_map_casts_witness :
    get_notes_map (fun _ => [⟨false, -1, 0, 0, 5⟩]) (2 ^ 31) =
      ((fun (_ : Int) => [(⟨false, -1, 0, 0, 5⟩ : NotesMapEntry)])
        (u64_as_i32 (2 ^ 31))).map notesMapEntryTuple ∧
    u64_as_i32 (2 ^ 31) ≠ ((2 ^ 31 : Nat) : Int) ∧
    i32_as_u64 (-1) = ((-1 : Int) + 2 ^ 64).toNat ∧
    2 ^ 64 - 2 ^ 31 ≤ i32_as_u64 (-1) :=
  c10_notes_map_casts (fun _ => [⟨false, -1, 0, 0, 5⟩]) (2 ^ 31) (-1)
    (by norm_num) (by norm_num) (by norm_num) (by norm_num)

end MaspIndexer
